import Mathlib

/-!
The package go-quadriga: a shallow embedding of `client.go`.

The client of `client.go` is embedded as pure functions.

* Go `string` and `[]byte` values are lists of bytes (`Bytes`).
* A Go function returning `(T, error)` returns `T × Option GoError`; `none` is `nil`.
* A call that may panic returns an `Outcome`; a call that talks to the network returns a
  `Run`, which also records the requests handed to the HTTP transport.
* The wall clock is the argument `now` (nanoseconds since the epoch) of `makeSig`.
* The HTTP transport is a function from the request to what the round trip delivers.
* `fmt.Println` and `fmt.Printf` only write to standard output and are left out.
* The response types (`CurrentTrade`, `OrderBook`, ...) and the JSON tags of `BaseAuth` and
  `OrderId` are declared outside `client.go`; `json.Marshal` and `json.Unmarshal` on them are
  parameters of the methods that call them.
* The standard library (`crypto/sha256`, `crypto/hmac`, `encoding/hex`, `strconv`, `strings`,
  `net/url`, `net/http`) is modelled by executable definitions that follow its documented
  behaviour. Of `net/url`, the parse and the text of a URL are computed on the plain URLs
  that the client builds from `V2URL`; on any other URL they are the parameter `NetURL`.
-/

namespace GoQuadriga

/-! ## Bytes and strings -/

/-- Go `string` and `[]byte`: a sequence of bytes. -/
abbrev Bytes := List UInt8

/-- The bytes (UTF-8) of a string literal of the source. -/
def str (s : String) : Bytes := s.toList.flatMap String.utf8EncodeChar

/-- Go `error` values, by the package that creates them. -/
inductive GoError where
  /-- An error of `net/url` (url.Parse), with its message. -/
  | url (msg : Bytes)
  /-- An error of the HTTP round trip (connection refused, DNS, TLS, ...). -/
  | transport (msg : Bytes)
  /-- An error of reading a response body. -/
  | read (msg : Bytes)
  /-- An error of `encoding/json`. -/
  | json (msg : Bytes)
  /-- The `*strconv.NumError` with `Err = ErrSyntax` for function `fn` on input `num`. -/
  | numError (fn num : Bytes)
deriving DecidableEq, Repr

deriving instance DecidableEq for Except

/-- A Go run-time panic. -/
inductive Panic where
  /-- The statement `panic(err)`. -/
  | explicit (err : GoError)
  /-- Index `index` into a slice of length `len`. -/
  | indexOutOfRange (index len : Nat)
  /-- A field access through a nil pointer. -/
  | nilDereference
deriving DecidableEq, Repr

/-- How a call ends: it returns a value or it panics. -/
inductive Outcome (α : Type) where
  | ret (a : α)
  | panic (p : Panic)
deriving DecidableEq, Repr

/-! ## `crypto/sha256`, `crypto/hmac`, `encoding/hex` -/

/-- The round constants of SHA-256. -/
def K256 : List Nat := [
  0x428a2f98, 0x71374491, 0xb5c0fbcf, 0xe9b5dba5, 0x3956c25b, 0x59f111f1, 0x923f82a4, 0xab1c5ed5,
  0xd807aa98, 0x12835b01, 0x243185be, 0x550c7dc3, 0x72be5d74, 0x80deb1fe, 0x9bdc06a7, 0xc19bf174,
  0xe49b69c1, 0xefbe4786, 0x0fc19dc6, 0x240ca1cc, 0x2de92c6f, 0x4a7484aa, 0x5cb0a9dc, 0x76f988da,
  0x983e5152, 0xa831c66d, 0xb00327c8, 0xbf597fc7, 0xc6e00bf3, 0xd5a79147, 0x06ca6351, 0x14292967,
  0x27b70a85, 0x2e1b2138, 0x4d2c6dfc, 0x53380d13, 0x650a7354, 0x766a0abb, 0x81c2c92e, 0x92722c85,
  0xa2bfe8a1, 0xa81a664b, 0xc24b8b70, 0xc76c51a3, 0xd192e819, 0xd6990624, 0xf40e3585, 0x106aa070,
  0x19a4c116, 0x1e376c08, 0x2748774c, 0x34b0bcb5, 0x391c0cb3, 0x4ed8aa4a, 0x5b9cca4f, 0x682e6ff3,
  0x748f82ee, 0x78a5636f, 0x84c87814, 0x8cc70208, 0x90befffa, 0xa4506ceb, 0xbef9a3f7, 0xc67178f2]

/-- Truncation to a `uint32`. -/
def u32 (x : Nat) : Nat := x % 2 ^ 32

/-- Rotation of a `uint32` to the right by `n` bits (`bits.RotateLeft32(x, -n)`). -/
def rotr (x n : Nat) : Nat := u32 ((x >>> n) ||| (x <<< (32 - n)))

/-- Bitwise complement of a `uint32`. -/
def not32 (x : Nat) : Nat := 2 ^ 32 - 1 - x

/-- The eight chaining words `h[0..7]` of a SHA-256 digest. -/
structure Digest where
  h0 : Nat
  h1 : Nat
  h2 : Nat
  h3 : Nat
  h4 : Nat
  h5 : Nat
  h6 : Nat
  h7 : Nat
deriving DecidableEq, Repr

/-- The initial chaining value of SHA-256. -/
def init256 : Digest :=
  ⟨0x6a09e667, 0xbb67ae85, 0x3c6ef372, 0xa54ff53a, 0x510e527f, 0x9b05688c, 0x1f83d9ab, 0x5be0cd19⟩

/-- The big-endian `uint32` at offset `j` of `p`. -/
def be32 (p : Bytes) (j : Nat) : Nat :=
  ((p.getD j 0).toNat <<< 24) ||| ((p.getD (j + 1) 0).toNat <<< 16) |||
    ((p.getD (j + 2) 0).toNat <<< 8) ||| (p.getD (j + 3) 0).toNat

/-- The first sixteen words of the message schedule. -/
def schedule16 (p : Bytes) : List Nat := (List.range 16).map (fun i => be32 p (i * 4))

/-- Appends `n` further words to the message schedule `w`. -/
def extend : Nat → List Nat → List Nat
  | 0, w => w
  | n + 1, w =>
    let i := w.length
    let v1 := w.getD (i - 2) 0
    let t1 := rotr v1 17 ^^^ rotr v1 19 ^^^ (v1 >>> 10)
    let v2 := w.getD (i - 15) 0
    let t2 := rotr v2 7 ^^^ rotr v2 18 ^^^ (v2 >>> 3)
    extend n (w ++ [u32 (t1 + w.getD (i - 7) 0 + t2 + w.getD (i - 16) 0)])

/-- One round of the compression function on the working variables `a..h`. -/
def round (d : Digest) (k w : Nat) : Digest :=
  let t1 := u32 (d.h7 + (rotr d.h4 6 ^^^ rotr d.h4 11 ^^^ rotr d.h4 25) +
    ((d.h4 &&& d.h5) ^^^ (not32 d.h4 &&& d.h6)) + k + w)
  let t2 := u32 ((rotr d.h0 2 ^^^ rotr d.h0 13 ^^^ rotr d.h0 22) +
    ((d.h0 &&& d.h1) ^^^ (d.h0 &&& d.h2) ^^^ (d.h1 &&& d.h2)))
  ⟨u32 (t1 + t2), d.h0, d.h1, d.h2, u32 (d.h3 + t1), d.h4, d.h5, d.h6⟩

/-- The rounds of the compression function, one per constant and schedule word. -/
def rounds : List Nat → List Nat → Digest → Digest
  | k :: ks, w :: ws, d => rounds ks ws (round d k w)
  | _, _, d => d

/-- The compression of one 64-byte block into the chaining value. -/
def block (d : Digest) (p : Bytes) : Digest :=
  let w := extend 48 (schedule16 p)
  let r := rounds K256 w d
  ⟨u32 (d.h0 + r.h0), u32 (d.h1 + r.h1), u32 (d.h2 + r.h2), u32 (d.h3 + r.h3),
   u32 (d.h4 + r.h4), u32 (d.h5 + r.h5), u32 (d.h6 + r.h6), u32 (d.h7 + r.h7)⟩

/-- The block loop over `n` consecutive 64-byte blocks of `p`. -/
def blockGeneric : Nat → Digest → Bytes → Digest
  | 0, d, _ => d
  | n + 1, d, p => blockGeneric n (block d (p.take 64)) (p.drop 64)

/-- The `width` bytes of `x`, most significant first. -/
def putBE (width : Nat) (x : Nat) : Bytes :=
  (List.range width).map (fun i => UInt8.ofNat (x >>> (8 * (width - 1 - i))))

/-- The message followed by the SHA-256 padding: `0x80`, zeros, the bit length on 8 bytes. -/
def pad256 (msg : Bytes) : Bytes :=
  let len := msg.length
  let t := if len % 64 < 56 then 56 - len % 64 else 64 + 56 - len % 64
  msg ++ ((0x80 : UInt8) :: List.replicate (t - 1) (0 : UInt8)) ++
    putBE 8 ((len <<< 3) % 2 ^ 64)

/-- The 32 bytes of a chaining value. -/
def checkSum (d : Digest) : Bytes :=
  putBE 4 d.h0 ++ putBE 4 d.h1 ++ putBE 4 d.h2 ++ putBE 4 d.h3 ++
  putBE 4 d.h4 ++ putBE 4 d.h5 ++ putBE 4 d.h6 ++ putBE 4 d.h7

/-- The SHA-256 checksum of `data` (`sha256.Sum256`). -/
def Sum256 (data : Bytes) : Bytes :=
  let p := pad256 data
  checkSum (blockGeneric (p.length / 64) init256 p)

/-- The MAC of `hmac.New(sha256.New, key)` after `Write(msg)` and `Sum(nil)`. -/
def hmacSHA256 (key msg : Bytes) : Bytes :=
  let k := if key.length > 64 then Sum256 key else key
  let k := k ++ List.replicate (64 - k.length) (0 : UInt8)
  let ipad := k.map (fun b => b ^^^ 0x36)
  let opad := k.map (fun b => b ^^^ 0x5c)
  Sum256 (opad ++ Sum256 (ipad ++ msg))

/-- The digits of `encoding/hex`. -/
def hextable : Bytes := str "0123456789abcdef"

/-- Two lowercase hexadecimal digits per byte (`hex.EncodeToString`). -/
def EncodeToString (src : Bytes) : Bytes :=
  src.flatMap (fun v => [hextable.getD (v >>> 4).toNat 0, hextable.getD (v &&& 0x0f).toNat 0])

/-- A lowercase hexadecimal digit, `0-9` or `a-f`. -/
def isLowerHex (b : UInt8) : Prop := (0x30 ≤ b ∧ b ≤ 0x39) ∨ (0x61 ≤ b ∧ b ≤ 0x66)

instance (b : UInt8) : Decidable (isLowerHex b) := by unfold isLowerHex; infer_instance

/-! ## `strconv` and `strings` -/

/-- The digits of `strconv`. -/
def digits : Bytes := str "0123456789abcdefghijklmnopqrstuvwxyz"

/-- The digits of `u` in base `base` in front of `acc`; `fuel` bounds the number of digits. -/
def formatBits : Nat → Nat → Nat → Bytes → Bytes
  | 0, _, _, acc => acc
  | fuel + 1, u, base, acc =>
    if u < base then digits.getD u 0 :: acc
    else formatBits fuel (u / base) base (digits.getD (u % base) 0 :: acc)

/-- The text of the integer `i` in base `base`, with a leading `-` when negative
(`strconv.FormatInt`, for `2 ≤ base ≤ 36`). -/
def FormatInt (i : Int) (base : Nat) : Bytes :=
  if i < 0 then 0x2d :: formatBits (i.natAbs + 1) i.natAbs base []
  else formatBits (i.natAbs + 1) i.natAbs base []

/-- The value of a decimal digit. -/
def digitValue (b : UInt8) : Option Nat :=
  if 0x30 ≤ b ∧ b ≤ 0x39 then some (b.toNat - 0x30) else none

/-- One step of reading a decimal numeral from the left. -/
def readDigit (acc : Option Nat) (b : UInt8) : Option Nat :=
  match acc, digitValue b with
  | some a, some d => some (a * 10 + d)
  | _, _ => none

/-- The natural number written by a non-empty string of decimal digits. -/
def natValue (s : Bytes) : Option Nat :=
  if s = [] then none else s.foldl readDigit (some 0)

/-- The integer written by a decimal numeral: an optional `-`, then digits. -/
def decimalValue (s : Bytes) : Option Int :=
  if s.head? = some 0x2d then (natValue s.tail).map (fun n => - (n : Int))
  else (natValue s).map (fun n => (n : Int))

/-- Parsing of a boolean (`strconv.ParseBool`): it accepts `1`, `t`, `T`, `TRUE`, `true`,
`True`, `0`, `f`, `F`, `FALSE`, `false`, `False`; any other value is an error. -/
def ParseBool (s : Bytes) : Bool × Option GoError :=
  if s ∈ [str "1", str "t", str "T", str "true", str "TRUE", str "True"] then (true, none)
  else if s ∈ [str "0", str "f", str "F", str "false", str "FALSE", str "False"] then
    (false, none)
  else (false, some (GoError.numError (str "ParseBool") s))

/-- Removal of the leading bytes that are in `cutset` (`strings.TrimLeft`, ASCII cutset). -/
def TrimLeft (s cutset : Bytes) : Bytes := s.dropWhile (fun b => decide (b ∈ cutset))

/-- Removal of the trailing bytes that are in `cutset` (`strings.TrimRight`, ASCII cutset). -/
def TrimRight (s cutset : Bytes) : Bytes := s.rdropWhile (fun b => decide (b ∈ cutset))

/-- Removal of the leading and trailing bytes that are in `cutset` (`strings.Trim`, for a
cutset of ASCII bytes). -/
def Trim (s cutset : Bytes) : Bytes := TrimLeft (TrimRight s cutset) cutset

/-- Whether `s` begins with `pre` (`strings.HasPrefix`). -/
def HasPrefix (s pre : Bytes) : Bool := pre.isPrefixOf s

/-- Whether `s` ends with `suf` (`strings.HasSuffix`). -/
def HasSuffix (s suf : Bytes) : Bool := suf.isSuffixOf s

/-- The text before and after the first byte `sep`, and whether `sep` occurs
(`strings.Cut` with a one-byte separator). -/
def Cut (s : Bytes) (sep : UInt8) : Bytes × Bytes × Bool :=
  if sep ∈ s then
    (s.takeWhile (fun b => b != sep), (s.dropWhile (fun b => b != sep)).drop 1, true)
  else (s, [], false)

/-- The text before and after the last byte `sep`, when `sep` occurs
(`strings.LastIndex` with a one-byte separator, and the two slices around it). -/
def cutLast (s : Bytes) (sep : UInt8) : Option (Bytes × Bytes) :=
  if sep ∈ s then
    some ((s.rdropWhile (fun b => b != sep)).dropLast, s.rtakeWhile (fun b => b != sep))
  else none

/-- ASCII lower-casing (`strings.ToLower` on ASCII text). -/
def ToLower (s : Bytes) : Bytes :=
  s.map (fun b => if 0x41 ≤ b ∧ b ≤ 0x5a then b + 0x20 else b)

/-- Concatenation of `elems` with `sep` between them (`strings.Join`). -/
def Join (elems : List Bytes) (sep : Bytes) : Bytes := sep.intercalate elems

/-! ## `net/url`

`url.Parse` is modelled on the plain URLs `scheme://host/path?query`: a scheme of letters,
a host of letters, digits, `.` and `-`, a path of letters, digits, `-`, `.`, `_`, `~` and
`/`, and an optional query without `#` and without control bytes. Every URL that the
client builds from `V2URL` is plain. On a plain URL the parse has nothing to validate or
to decode, and the model follows the library step by step. On any other text (a port, user
information, a bracketed host, a percent-escape or another byte in host or path, a
fragment, a relative or opaque reference) the result of `url.Parse` is not computed here:
it is the parameter `NetURL.ParseOther`, about which nothing is assumed. In the same way
`URL.String` is modelled on the fields of a parsed plain URL, with any query, and is the
parameter `NetURL.StringOther` on any other URL.
-/

/-- The fields of `url.URL`. -/
structure URL where
  Scheme : Bytes
  Opaque : Bytes
  User : Option Bytes
  Host : Bytes
  Path : Bytes
  OmitHost : Bool
  ForceQuery : Bool
  RawQuery : Bytes
  Fragment : Bytes
  RawPath : Bytes
deriving DecidableEq, Repr

/-- Whether `s` has an ASCII control byte. -/
def stringContainsCTLByte (s : Bytes) : Bool := s.any (fun b => b < 0x20 || b == 0x7f)

/-- The scan of `getScheme`: `seen` is the text before the current byte. -/
def getSchemeFrom (rawURL : Bytes) : Bytes → Bytes → Except GoError (Bytes × Bytes)
  | [], _ => .ok ([], rawURL)
  | c :: rest, seen =>
    if (0x61 ≤ c ∧ c ≤ 0x7a) ∨ (0x41 ≤ c ∧ c ≤ 0x5a) then
      getSchemeFrom rawURL rest (seen ++ [c])
    else if (0x30 ≤ c ∧ c ≤ 0x39) ∨ c = 0x2b ∨ c = 0x2d ∨ c = 0x2e then
      if seen = [] then .ok ([], rawURL) else getSchemeFrom rawURL rest (seen ++ [c])
    else if c = 0x3a then
      if seen = [] then .error (GoError.url (str "missing protocol scheme"))
      else .ok (seen, rest)
    else .ok ([], rawURL)

/-- The scheme of `rawURL` (possibly empty) and the text after its colon. -/
def getScheme (rawURL : Bytes) : Except GoError (Bytes × Bytes) :=
  getSchemeFrom rawURL rawURL []

/-- The user information and the host of an authority. The authority of a plain URL has no
`@`, no port and no escape: it is the host, and the library has nothing to validate. -/
def parseAuthority (authority : Bytes) : Option Bytes × Bytes :=
  match cutLast authority 0x40 with
  | none => (none, authority)
  | some (userinfo, host) => (some userinfo, host)

/-- The parse of the text between the scheme and the query: an opaque text, or an
authority and a path, or a path. -/
def parseHier (scheme rest : Bytes) : Except GoError URL :=
  if !HasPrefix rest (str "/") && scheme ≠ [] then
    .ok ⟨scheme, rest, none, [], [], false, false, [], [], []⟩
  else if !HasPrefix rest (str "/") && (Cut rest 0x2f).1.contains 0x3a then
    .error (GoError.url (str "first path segment in URL cannot contain colon"))
  else if (scheme ≠ [] || !HasPrefix rest (str "///")) && HasPrefix rest (str "//") then
    let authority := (Cut (rest.drop 2) 0x2f).1
    let path := (rest.drop 2).drop authority.length
    let (user, host) := parseAuthority authority
    .ok ⟨scheme, [], user, host, path, false, false, [], [], []⟩
  else
    .ok ⟨scheme, [], none, [], rest, scheme ≠ [] && HasPrefix rest (str "/"), false, [], [], []⟩

/-- The parse of a URL without fragment (`parse(rawURL, false)`): the scheme, then the
query after the first `?`, then the rest. `Parse` applies it to plain URLs only. -/
def parse (rawURL : Bytes) : Except GoError URL :=
  if stringContainsCTLByte rawURL then
    .error (GoError.url (str "net/url: invalid control character in URL"))
  else if rawURL = str "*" then
    .ok ⟨[], [], none, [], str "*", false, false, [], [], []⟩
  else
    match getScheme rawURL with
    | .error e => .error e
    | .ok (scheme, rest) =>
      if HasSuffix rest (str "?") && rest.count 0x3f == 1 then
        (parseHier (ToLower scheme) (rest.take (rest.length - 1))).map
          (fun u => { u with ForceQuery := true })
      else
        (parseHier (ToLower scheme) (Cut rest 0x3f).1).map
          (fun u => { u with RawQuery := (Cut rest 0x3f).2.1 })

/-- A letter. -/
def isLetter (b : UInt8) : Bool := (0x61 ≤ b && b ≤ 0x7a) || (0x41 ≤ b && b ≤ 0x5a)

/-- A digit. -/
def isDigit (b : UInt8) : Bool := 0x30 ≤ b && b ≤ 0x39

/-- A byte of the host of a plain URL: a letter, a digit, `.` or `-`. -/
def isHostByte (b : UInt8) : Bool := isLetter b || isDigit b || b == 0x2e || b == 0x2d

/-- A byte of the path of a plain URL: a letter, a digit, `-`, `.`, `_`, `~` or `/`. -/
def isPathByte (b : UInt8) : Bool :=
  isLetter b || isDigit b || b == 0x2d || b == 0x2e || b == 0x5f || b == 0x7e || b == 0x2f

/-- A byte of the query of a plain URL: any byte but `#` and the control bytes. -/
def isQueryByte (b : UInt8) : Bool := !(b < 0x20) && b != 0x7f && b != 0x23

/-- Whether `rawURL` is a plain URL: letters, `://`, a non-empty host of host bytes, then a
path that is empty or starts with `/`, then nothing or `?` and a query. -/
def plainURL (rawURL : Bytes) : Bool :=
  let scheme := rawURL.takeWhile isLetter
  let rest := rawURL.dropWhile isLetter
  let host := (rest.drop 3).takeWhile isHostByte
  let rest2 := (rest.drop 3).dropWhile isHostByte
  let path := rest2.takeWhile isPathByte
  let rest3 := rest2.dropWhile isPathByte
  scheme ≠ [] && HasPrefix rest (str "://") && host ≠ [] &&
    (path = [] || path.head? == some 0x2f) &&
    (rest3 = [] || (rest3.head? == some 0x3f && (rest3.drop 1).all isQueryByte))

/-- Whether `u` has the fields of a parsed plain URL: a scheme of letters, a non-empty host
of host bytes, a path of path bytes that is empty or starts with `/`, and no opaque text,
user information, fragment or encoded path hint. The query is free. -/
def plainFields (u : URL) : Bool :=
  u.Scheme ≠ [] && u.Scheme.all isLetter && u.Opaque = [] && u.User.isNone &&
    u.Host ≠ [] && u.Host.all isHostByte &&
    (u.Path = [] || u.Path.head? == some 0x2f) && u.Path.all isPathByte &&
    !u.OmitHost && u.Fragment = [] && u.RawPath = []

/-- The part of `net/url` that is a parameter: what `url.Parse` returns on a text that is
not a plain URL, and what `URL.String` returns on a URL whose fields are not plain. -/
structure NetURL where
  ParseOther : Bytes → Except GoError URL
  StringOther : URL → Bytes

/-- The parse of a URL (`url.Parse`): computed on a plain URL, which has no fragment, and
taken from `lib` on any other text. -/
def Parse (lib : NetURL) (rawURL : Bytes) : Except GoError URL :=
  if plainURL rawURL then parse rawURL else lib.ParseOther rawURL

/-- The text of a URL up to its query: scheme, then the opaque text or authority and path. -/
def URL.hierString (u : URL) : Bytes :=
  let scheme := if u.Scheme ≠ [] then u.Scheme ++ [0x3a] else []
  let rest :=
    if u.Opaque ≠ [] then u.Opaque
    else
      let authority :=
        if u.Scheme ≠ [] ∨ u.Host ≠ [] ∨ u.User.isSome then
          if u.OmitHost ∧ u.Host = [] ∧ u.User.isNone then []
          else
            (if u.Host ≠ [] ∨ u.Path ≠ [] ∨ u.User.isSome then str "//" else []) ++
            (match u.User with
             | some ui => ui ++ [0x40]
             | none => []) ++ u.Host
        else []
      let slash := if u.Path ≠ [] ∧ u.Path.head? ≠ some 0x2f ∧ u.Host ≠ [] then [0x2f] else []
      let dot :=
        if scheme ++ authority ++ slash = [] ∧ (Cut u.Path 0x2f).1.contains 0x3a then str "./"
        else []
      authority ++ slash ++ dot ++ u.Path
  scheme ++ rest

/-- The text of a URL (`URL.String`): computed on plain fields, which need no escape, and
taken from `lib` on any other URL. -/
def URL.String (lib : NetURL) (u : URL) : Bytes :=
  if plainFields u then
    let query := if u.ForceQuery ∨ u.RawQuery ≠ [] then 0x3f :: u.RawQuery else []
    let fragment := if u.Fragment ≠ [] then 0x23 :: u.Fragment else []
    u.hierString ++ query ++ fragment
  else lib.StringOther u

/-- The upper-case hexadecimal digits of `net/url`. -/
def upperhex : Bytes := str "0123456789ABCDEF"

/-- Whether a byte is escaped in a query component (`shouldEscape(c, encodeQueryComponent)`):
all bytes but letters, digits, `-`, `_`, `.` and `~`. -/
def shouldEscape (c : UInt8) : Bool :=
  if (0x61 ≤ c ∧ c ≤ 0x7a) ∨ (0x41 ≤ c ∧ c ≤ 0x5a) ∨ (0x30 ≤ c ∧ c ≤ 0x39) then false
  else if c = 0x2d ∨ c = 0x5f ∨ c = 0x2e ∨ c = 0x7e then false
  else true

/-- The escape of one byte of a query component: a space becomes `+`, any other escaped
byte becomes `%XX`. -/
def escapeByte (c : UInt8) : Bytes :=
  if c = 0x20 then [0x2b]
  else if shouldEscape c then
    [0x25, upperhex.getD (c >>> 4).toNat 0, upperhex.getD (c &&& 15).toNat 0]
  else [c]

/-- Escaping of a query component (`url.QueryEscape`). -/
def QueryEscape (s : Bytes) : Bytes := s.flatMap escapeByte

/-- The keys of `url.Values` with their values. `Encode` writes the keys in sorted order;
the client stores a single key. -/
abbrev Values := List (Bytes × List Bytes)

/-- Appends `value` to the values of `key` (`Values.Add`). -/
def Values.Add (v : Values) (key value : Bytes) : Values :=
  if v.any (fun kv => kv.1 = key) then
    v.map (fun kv => if kv.1 = key then (kv.1, kv.2 ++ [value]) else kv)
  else v ++ [(key, [value])]

/-- The form `k1=v1&k2=v2` with keys and values escaped (`Values.Encode`). -/
def Values.Encode (v : Values) : Bytes :=
  Join (v.flatMap (fun kv => kv.2.map (fun value =>
    QueryEscape kv.1 ++ [0x3d] ++ QueryEscape value))) (str "&")

/-! ## `net/http` -/

/-- The parts of an `http.Request` that the client sets. -/
structure Request where
  Method : Bytes
  URL : Bytes
  Header : List (Bytes × Bytes)
  Body : Bytes
deriving DecidableEq, Repr

/-- What `ioutil.ReadAll(resp.Body)` delivers for a response: the bytes read and the error
that ended the read, if any. -/
structure Response where
  Body : Bytes
  ReadErr : Option GoError
deriving DecidableEq, Repr

/-- The HTTP round trip: for a request, the response or the transport error. -/
abbrev Transport := Request → Except GoError Response

/-- The result of `http.NewRequest(method, url, body)` for the methods `GET` and `POST`: the
request, or the error of `url.Parse` on `url`. -/
def NewRequest (lib : NetURL) (method url body : Bytes) : Except GoError Request :=
  match Parse lib url with
  | .error e => .error e
  | .ok _ => .ok ⟨method, url, [], body⟩

/-- Replaces the values of header `key` with `value` (`Header.Set`). -/
def Request.SetHeader (req : Request) (key value : Bytes) : Request :=
  { req with Header := req.Header.filter (fun kv => kv.1 ≠ key) ++ [(key, value)] }

/-- A call on the network: the requests handed to the transport, in order, and how the
call ends. -/
structure Run (α : Type) where
  sent : List Request
  out : Outcome α

/-- A call that returns `a` without a request. -/
def Run.pure {α : Type} (a : α) : Run α := ⟨[], .ret a⟩

/-- A call that panics without a request. -/
def Run.panic {α : Type} (p : Panic) : Run α := ⟨[], .panic p⟩

/-- Sequencing: a panic ends the call, the requests accumulate. -/
def Run.bind {α β : Type} (r : Run α) (f : α → Run β) : Run β :=
  match r.out with
  | .panic p => ⟨r.sent, .panic p⟩
  | .ret a => ⟨r.sent ++ (f a).sent, (f a).out⟩

instance : Monad Run where
  pure := Run.pure
  bind := Run.bind

/-- Hands `req` to the transport (`Client.Do`). -/
def Do (net : Transport) (req : Request) : Run (Except GoError Response) :=
  ⟨[req], .ret (net req)⟩

/-- The call `http.Get(url)`. -/
def httpGet (lib : NetURL) (net : Transport) (url : Bytes) : Run (Except GoError Response) :=
  match NewRequest lib (str "GET") url [] with
  | .error e => pure (.error e)
  | .ok req => Do net req

/-- Element 0 of a slice; a panic on the empty (or nil) slice. -/
def index0 {α : Type} (xs : List α) : Run α :=
  match xs with
  | [] => Run.panic (.indexOutOfRange 0 0)
  | x :: _ => pure x

/-! ## `client.go` -/

/-- The constant `V2URL`. -/
def V2URL : Bytes := str "https://api.quadrigacx.com/v2/"

/-- The struct `Client`. -/
structure Client where
  RootUrl : Bytes
  ClientId : Bytes
  ApiKey : Bytes
  ApiSecret : Bytes
deriving DecidableEq, Repr

/-- The fields of `BaseAuth` that `makeSig` sets. -/
structure BaseAuth where
  ApiKey : Bytes
  Signature : Bytes
  Nonce : Bytes
deriving DecidableEq, Repr

/-- The field of `OrderId` that the client sets. -/
structure OrderId where
  ID : Bytes
deriving DecidableEq, Repr

/-- The anonymous struct that embeds `*BaseAuth` and `OrderId`. -/
structure AuthOrder where
  BaseAuth : BaseAuth
  OrderId : OrderId
deriving DecidableEq, Repr

/-- The call `json.Marshal(v)` for a type declared outside `client.go`: the bytes and the
error. -/
abbrev Marshal (T : Type) := T → Bytes × Option GoError

/-- The zero value of a type declared outside `client.go`, and `json.Unmarshal(data, &v)`
on it: from the bytes and the value of `v`, the value left in `v` and the error. -/
structure JsonType (T : Type) where
  zero : T
  Unmarshal : Bytes → T → T × Option GoError

/-- The function `NewClient`. -/
def NewClient (id key secret : Bytes) : Client :=
  { RootUrl := V2URL, ClientId := id, ApiKey := key, ApiSecret := secret }

/-- The method `Client.URL`. -/
def Client.URL (c : Client) (res : Bytes) : Bytes := c.RootUrl ++ res

/-- The method `Client.makeSig`, at the clock reading `now`. -/
def Client.makeSig (c : Client) (now : Int) : BaseAuth :=
  let timestamp := FormatInt now 10
  let message := Join [timestamp, c.ClientId, c.ApiKey] []
  let sig := hmacSHA256 c.ApiSecret message
  { ApiKey := c.ApiKey, Signature := EncodeToString sig, Nonce := timestamp }

/-- The method `Client.get`. -/
def Client.get (lib : NetURL) (net : Transport) (_c : Client) (url : Bytes) :
    Run (Bytes × Option GoError) := do
  let r ← httpGet lib net url
  match r with
  | .error err => pure ([], some err)
  | .ok resp =>
    match resp.ReadErr with
    | some err => pure ([], some err)
    | none => pure (resp.Body, none)

/-- The method `Client.post`. The error of `http.NewRequest` is overwritten unread; when
there is one the request is nil and `req.Header.Set` dereferences it. -/
def Client.post (lib : NetURL) (net : Transport) (_c : Client) (url payload : Bytes) :
    Run (Bytes × Option GoError) := do
  match NewRequest lib (str "POST") url payload with
  | .error _ => Run.panic .nilDereference
  | .ok req =>
    let req := req.SetHeader (str "Content-Type") (str "application/json; charset=utf-8")
    let r ← Do net req
    match r with
    | .error err => Run.panic (.explicit err)
    | .ok resp => pure (resp.Body, none)

/-- The method `Client.GetCurrentTradingInfo`. -/
def Client.GetCurrentTradingInfo {CurrentTrade : Type} (lib : NetURL) (J : JsonType CurrentTrade)
    (net : Transport) (c : Client) : Run (CurrentTrade × Option GoError) := do
  let current := J.zero
  let (body, err) ← c.get lib net (c.URL (str "ticker"))
  if err ≠ none then pure (current, err)
  else
    let (current, err) := J.Unmarshal body current
    pure (current, err)

/-- The method `Client.GetOrderBook`. -/
def Client.GetOrderBook {OrderBook : Type} (lib : NetURL) (J : JsonType OrderBook)
    (net : Transport) (c : Client) : Run (OrderBook × Option GoError) := do
  let orders := J.zero
  let (body, err) ← c.get lib net (c.URL (str "order_book"))
  if err ≠ none then pure (orders, err)
  else
    let (orders, err) := J.Unmarshal body orders
    pure (orders, err)

/-- The method `Client.GetSpecificOrderBook`. -/
def Client.GetSpecificOrderBook {OrderBook : Type} (lib : NetURL) (J : JsonType OrderBook)
    (net : Transport) (c : Client) (book : Bytes) : Run (OrderBook × Option GoError) := do
  let orders := J.zero
  match Parse lib (c.URL (str "order_book")) with
  | .error err => pure (orders, some err)
  | .ok orderBookUrl =>
    let vals : Values := []
    let vals := vals.Add (str "book") book
    let orderBookUrl := { orderBookUrl with RawQuery := vals.Encode }
    let (body, err) ← c.get lib net (orderBookUrl.String lib)
    if err ≠ none then pure (orders, err)
    else
      let (orders, err) := J.Unmarshal body orders
      pure (orders, err)

/-- The method `Client.GetTransactions`. -/
def Client.GetTransactions {TransactionResponse : Type} (lib : NetURL) (J : JsonType TransactionResponse)
    (net : Transport) (c : Client) : Run (TransactionResponse × Option GoError) := do
  let transactions := J.zero
  let (body, err) ← c.get lib net (c.URL (str "transactions"))
  if err ≠ none then pure (transactions, err)
  else
    let (transactions, err) := J.Unmarshal body transactions
    pure (transactions, err)

/-- The method `Client.PostAccountBalance`. -/
def Client.PostAccountBalance {AccountBalance : Type} (lib : NetURL)
    (marshal : Marshal BaseAuth)
    (J : JsonType AccountBalance) (net : Transport) (c : Client) (now : Int) :
    Run (AccountBalance × Option GoError) := do
  let balance := J.zero
  let auth := c.makeSig now
  let (payload, err) := marshal auth
  if err ≠ none then pure (balance, err)
  else
    let (body, err) ← c.post lib net (c.URL (str "balance")) payload
    if err ≠ none then pure (balance, err)
    else
      let (balance, _err) := J.Unmarshal body balance
      pure (balance, none)

/-- The method `Client.PostOpenOrders`. -/
def Client.PostOpenOrders {OpenOrdersResponse : Type} (lib : NetURL)
    (marshal : Marshal BaseAuth)
    (J : JsonType OpenOrdersResponse) (net : Transport) (c : Client) (now : Int) :
    Run (OpenOrdersResponse × Option GoError) := do
  let orders := J.zero
  let auth := c.makeSig now
  let (payload, err) := marshal auth
  if err ≠ none then pure (orders, err)
  else
    let (body, err) ← c.post lib net (c.URL (str "open_orders")) payload
    if err ≠ none then pure (orders, err)
    else
      let (orders, _err) := J.Unmarshal body orders
      pure (orders, none)

/-- The method `Client.PostOrderLookup`; `unmarshal` is `json.Unmarshal` into the slice
`[]LookupOrderResponse`, whose zero value is the nil slice. -/
def Client.PostOrderLookup {LookupOrderResponse : Type} (lib : NetURL)
    (marshal : Marshal AuthOrder)
    (unmarshal : Bytes → List LookupOrderResponse → List LookupOrderResponse × Option GoError)
    (net : Transport) (c : Client) (now : Int) (id : Bytes) :
    Run (LookupOrderResponse × Option GoError) := do
  let lookup : OrderId := { ID := id }
  let order : List LookupOrderResponse := []
  let auth := c.makeSig now
  let (payload, err) := marshal ⟨auth, lookup⟩
  if err ≠ none then
    let first ← index0 order
    pure (first, err)
  else
    let (body, err) ← c.post lib net (c.URL (str "lookup_order")) payload
    if err ≠ none then
      let first ← index0 order
      pure (first, err)
    else
      let (order, err) := unmarshal body order
      let first ← index0 order
      pure (first, err)

/-- The method `Client.PostCancelOrder`. -/
def Client.PostCancelOrder (lib : NetURL) (marshal : Marshal AuthOrder) (net : Transport)
    (c : Client)
    (now : Int) (id : Bytes) : Run (Bool × Option GoError) := do
  let cancel : OrderId := { ID := id }
  let auth := c.makeSig now
  let (payload, err) := marshal ⟨auth, cancel⟩
  if err ≠ none then pure (false, err)
  else
    let (body, err) ← c.post lib net (c.URL (str "cancel_order")) payload
    if err ≠ none then pure (false, err)
    else
      let (cancelSuccess, err) := ParseBool (Trim body [0x22])
      if err ≠ none then pure (false, err)
      else pure (cancelSuccess, err)

/-! ## Properties named by the specification, and objects for the examples -/

/-- Whether the nonces of two signing calls, at the clock readings `t1` then `t2`, are
strictly increasing as integers. -/
def NonceIncreasing (c : Client) (t1 t2 : Int) : Prop :=
  ∃ n1 n2 : Int, decimalValue (c.makeSig t1).Nonce = some n1 ∧
    decimalValue (c.makeSig t2).Nonce = some n2 ∧ n1 < n2

/-- A client for the examples. -/
def exampleClient : Client := NewClient (str "1234") (str "key") (str "secret")

/-- A marshaller for the examples: the fields, separated by commas. -/
def exampleMarshal : Marshal AuthOrder := fun v =>
  (Join [v.BaseAuth.ApiKey, v.BaseAuth.Signature, v.BaseAuth.Nonce, v.OrderId.ID] (str ","), none)

/-- A marshaller of `BaseAuth` for the examples: the fields, separated by commas. -/
def exampleMarshalAuth : Marshal BaseAuth := fun v =>
  (Join [v.ApiKey, v.Signature, v.Nonce] (str ","), none)

/-- A response type for the examples: the body is kept as it is when it starts with an
opening bracket or brace, and is an error otherwise. -/
def exampleJson : JsonType Bytes where
  zero := []
  Unmarshal := fun data v =>
    if data.head? = some 0x5b ∨ data.head? = some 0x7b then (data, none)
    else (v, some (GoError.json (str "invalid character")))

/-- The texts between the commas of `s`. -/
def splitCommas : Bytes → List Bytes
  | [] => [[]]
  | b :: rest =>
    if b = 0x2c then [] :: splitCommas rest
    else
      match splitCommas rest with
      | [] => [[b]]
      | x :: xs => (b :: x) :: xs

/-- A decoder of order lists for the examples: the body `[]` is the empty list, any other
body in brackets is the list of the records between its commas. -/
def exampleUnmarshalOrders : Bytes → List Bytes → List Bytes × Option GoError :=
  fun data v =>
    if data = str "[]" then ([], none)
    else if data.head? = some 0x5b ∧ data.getLast? = some 0x5d then
      (splitCommas (data.drop 1).dropLast, none)
    else (v, some (GoError.json (str "invalid character")))

/-- A library for the examples: it rejects every text that is not a plain URL, and never
has to write a URL that is not plain. -/
def exampleNetURL : NetURL where
  ParseOther := fun _ => .error (GoError.url (str "invalid URL"))
  StringOther := fun _ => []

/-- The transport that answers every request with `body`. -/
def answering (body : Bytes) : Transport := fun _ => .ok ⟨body, none⟩

/-- The transport that fails every request with `err` (a refused connection, say). -/
def failing (err : GoError) : Transport := fun _ => .error err


/-! ## Theorems -/

/-! ### Decimal text, SHA-256 and the signature -/

theorem digits_getD_value (u : Nat) (h : u < 10) :
    digitValue (digits.getD u 0) = some u ∧ digits.getD u 0 ≠ 0x2d := by
  interval_cases u <;> decide

theorem formatBits_cons (fuel u : Nat) (acc : Bytes) (h : u < fuel) :
    ∃ d rest, d < 10 ∧ formatBits fuel u 10 acc = digits.getD d 0 :: rest := by
  induction fuel generalizing u acc with
  | zero => omega
  | succ fuel ih =>
    unfold formatBits
    split
    · exact ⟨u, acc, by assumption, rfl⟩
    · exact ih (u / 10) _ (by omega)

theorem foldl_formatBits (fuel u : Nat) (acc : Bytes) (h : u < fuel) :
    (formatBits fuel u 10 acc).foldl readDigit (some 0) = acc.foldl readDigit (some u) := by
  induction fuel generalizing u acc with
  | zero => omega
  | succ fuel ih =>
    unfold formatBits
    split
    · rename_i hu
      have hd := (digits_getD_value u hu).1
      simp only [List.foldl_cons, readDigit, hd]
      simp
    · rw [ih (u / 10) _ (by omega)]
      have hd := (digits_getD_value (u % 10) (Nat.mod_lt _ (by decide))).1
      simp only [List.foldl_cons, readDigit, hd]
      congr 2
      omega

theorem natValue_formatBits (u : Nat) : natValue (formatBits (u + 1) u 10 []) = some u := by
  obtain ⟨d, rest, _, hd⟩ := formatBits_cons (u + 1) u [] (by omega)
  have h := foldl_formatBits (u + 1) u [] (by omega)
  unfold natValue
  rw [if_neg (by rw [hd]; simp)]
  simpa using h

theorem decimalValue_FormatInt (i : Int) : decimalValue (FormatInt i 10) = some i := by
  unfold FormatInt decimalValue
  split
  · rename_i hneg
    have habs : ((i.natAbs : Nat) : Int) = -i := Int.ofNat_natAbs_of_nonpos (le_of_lt hneg)
    simp [natValue_formatBits, habs]
  · rename_i hpos
    obtain ⟨d, rest, hd10, hd⟩ := formatBits_cons (i.natAbs + 1) i.natAbs [] (by omega)
    have hne : (formatBits (i.natAbs + 1) i.natAbs 10 []).head? ≠ some 0x2d := by
      rw [hd]
      simp only [List.head?_cons, ne_eq, Option.some.injEq]
      exact (digits_getD_value d hd10).2
    have habs : ((i.natAbs : Nat) : Int) = i := Int.natAbs_of_nonneg (not_lt.mp hpos)
    rw [if_neg hne, natValue_formatBits]
    simp [habs]


set_option maxRecDepth 100000 in
theorem hex_digits_aux : ∀ i : BitVec 8,
    isLowerHex (hextable.getD ((⟨i⟩ : UInt8) >>> 4).toNat 0) ∧
    isLowerHex (hextable.getD ((⟨i⟩ : UInt8) &&& 0x0f).toNat 0) := by decide

theorem hex_digits (v : UInt8) :
    isLowerHex (hextable.getD (v >>> 4).toNat 0) ∧
    isLowerHex (hextable.getD (v &&& 0x0f).toNat 0) := hex_digits_aux v.toBitVec

theorem EncodeToString_length (src : Bytes) : (EncodeToString src).length = 2 * src.length := by
  induction src with
  | nil => rfl
  | cons v vs ih =>
    simp only [EncodeToString, List.flatMap_cons, List.length_append, List.length_cons, List.length_nil] at ih ⊢
    omega

theorem EncodeToString_hex (src : Bytes) : ∀ b ∈ EncodeToString src, isLowerHex b := by
  intro b hb
  simp only [EncodeToString, List.mem_flatMap, List.mem_cons, List.mem_singleton, List.not_mem_nil, or_false] at hb
  obtain ⟨v, _, h | h⟩ := hb
  · rw [h]; exact (hex_digits v).1
  · rw [h]; exact (hex_digits v).2

theorem putBE_length (w x : Nat) : (putBE w x).length = w := by simp [putBE]

theorem Sum256_length (data : Bytes) : (Sum256 data).length = 32 := by
  simp [Sum256, checkSum, putBE_length]

theorem hmacSHA256_length (key msg : Bytes) : (hmacSHA256 key msg).length = 32 := by
  simp [hmacSHA256, Sum256_length]

set_option maxRecDepth 1000000 in
/-- The model of SHA-256 on the test vector `abc` of FIPS 180. -/
theorem Sum256_abc : EncodeToString (Sum256 (str "abc")) =
    str "ba7816bf8f01cfea414140de5dae2223b00361a396177a9cb410ff61f20015ad" := by decide

set_option maxRecDepth 1000000 in
/-- The model of HMAC-SHA256 on test case 2 of RFC 4231. -/
theorem hmacSHA256_rfc4231 :
    EncodeToString (hmacSHA256 (str "Jefe") (str "what do ya want for nothing?")) =
    str "5bdcc146bf60754e6a042426089575c75a003f089d2739839dec58b964ec3843" := by decide

theorem makeSig_nonce (c : Client) (t : Int) :
    (c.makeSig t).Nonce = FormatInt t 10 ∧ decimalValue (c.makeSig t).Nonce = some t :=
  ⟨rfl, decimalValue_FormatInt t⟩

/-- C3: at every clock reading `t`, `makeSig` returns the decimal text of `t` as nonce, the
API key of the client, and as signature the lowercase hexadecimal text of HMAC-SHA256 with
the API secret as key over nonce, client identifier and API key concatenated; the signature
has 64 characters, all of them in `0-9a-f`. -/
theorem makeSig_spec (c : Client) (t : Int) :
    (c.makeSig t).Nonce = FormatInt t 10 ∧
    decimalValue (c.makeSig t).Nonce = some t ∧
    (c.makeSig t).ApiKey = c.ApiKey ∧
    (c.makeSig t).Signature =
      EncodeToString (hmacSHA256 c.ApiSecret ((c.makeSig t).Nonce ++ c.ClientId ++ c.ApiKey)) ∧
    (c.makeSig t).Signature.length = 64 ∧
    ∀ b ∈ (c.makeSig t).Signature, isLowerHex b := by
  refine ⟨rfl, decimalValue_FormatInt t, rfl, ?_, ?_, ?_⟩
  · simp [Client.makeSig, Join, List.intercalate, List.intersperse]
  · simp [Client.makeSig, EncodeToString_length, hmacSHA256_length]
  · exact EncodeToString_hex _

/-- C6, as stated, fails: two signing calls that read the same clock value produce the same
nonce. -/
theorem nonce_equal_readings :
    ¬ NonceIncreasing (NewClient (str "id") (str "key") (str "secret"))
      1700000000000000000 1700000000000000000 := by
  rintro ⟨n1, n2, h1, h2, hlt⟩
  rw [(makeSig_nonce _ _).2] at h1 h2
  cases h1
  cases h2
  exact lt_irrefl _ hlt

/-- C6, amended: the nonces of two consecutive signing calls are strictly increasing as
integers exactly when the second clock reading is strictly greater than the first. -/
theorem nonce_increasing_iff (c : Client) (t1 t2 : Int) :
    NonceIncreasing c t1 t2 ↔ t1 < t2 := by
  constructor
  · rintro ⟨n1, n2, h1, h2, hlt⟩
    rw [(makeSig_nonce _ _).2] at h1 h2
    cases h1
    cases h2
    exact hlt
  · intro h
    exact ⟨t1, t2, (makeSig_nonce _ _).2, (makeSig_nonce _ _).2, h⟩

/-! ### URLs -/

theorem Cut_not_mem (s : Bytes) (sep : UInt8) (h : sep ∉ s) : Cut s sep = (s, [], false) := by
  simp [Cut, h]

theorem Cut_append_cons (a b : Bytes) (sep : UInt8) (h : sep ∉ a) :
    Cut (a ++ sep :: b) sep = (a, b, true) := by
  have h1 : ∀ x ∈ a, (x != sep) = true := by
    intro x hx
    simp only [bne_iff_ne, ne_eq]
    rintro rfl
    exact h hx
  simp [Cut, List.takeWhile_append_of_pos h1, List.dropWhile_append_of_pos h1]

theorem getSchemeFrom_alpha (raw scheme rest seen : Bytes)
    (h : ∀ b ∈ scheme, (0x61 ≤ b ∧ b ≤ 0x7a) ∨ (0x41 ≤ b ∧ b ≤ 0x5a)) (hne : seen ++ scheme ≠ []) :
    getSchemeFrom raw (scheme ++ 0x3a :: rest) seen = .ok (seen ++ scheme, rest) := by
  induction scheme generalizing seen with
  | nil =>
    have hs : seen ≠ [] := by simpa using hne
    simp [getSchemeFrom, hs]
  | cons b bs ih =>
    have hb := h b (List.mem_cons_self _ _)
    simp only [List.cons_append, getSchemeFrom, hb, if_true]
    have := ih (seen ++ [b]) (fun x hx => h x (List.mem_cons_of_mem _ hx)) (by simp)
    simpa using this

theorem HasSuffix_singleton (s : Bytes) (b : UInt8) (h : s.getLast? ≠ some b) :
    HasSuffix s [b] = false := by
  rcases List.eq_nil_or_concat s with rfl | ⟨l, a, rfl⟩
  · simp [HasSuffix, List.isSuffixOf]
  · have hab : a ≠ b := by simpa using h
    simp [HasSuffix, List.isSuffixOf, List.isPrefixOf, hab, Ne.symm hab]

theorem takeWhile_dropWhile_stop (p : UInt8 → Bool) (l1 : Bytes) (a : UInt8) (l2 : Bytes)
    (h1 : ∀ x ∈ l1, p x = true) (ha : p a = false) :
    (l1 ++ a :: l2).takeWhile p = l1 ∧ (l1 ++ a :: l2).dropWhile p = a :: l2 := by
  constructor
  · rw [List.takeWhile_append_of_pos h1, List.takeWhile_cons_of_neg (by simp [ha])]
    simp
  · rw [List.dropWhile_append_of_pos h1, List.dropWhile_cons_of_neg (by simp [ha])]

set_option maxRecDepth 100000 in
theorem plainURL_order_book_query (q : Bytes)
    (hq : ∀ b ∈ q, b ≠ 0x23 ∧ b ≠ 0x3f ∧ ¬ b < 0x20 ∧ b ≠ 0x7f) :
    plainURL (V2URL ++ str "order_book" ++ 0x3f :: q) = true := by
  have hB : V2URL ++ str "order_book" =
      str "https" ++ 0x3a :: 0x2f :: 0x2f ::
        (str "api.quadrigacx.com" ++ 0x2f :: str "v2/order_book") := by decide
  have hraw : V2URL ++ str "order_book" ++ 0x3f :: q =
      str "https" ++ 0x3a :: (0x2f :: 0x2f ::
        (str "api.quadrigacx.com" ++ 0x2f :: (str "v2/order_book" ++ 0x3f :: q))) := by
    rw [hB]
    simp
  have h1 := takeWhile_dropWhile_stop isLetter (str "https") 0x3a (0x2f :: 0x2f ::
        (str "api.quadrigacx.com" ++ 0x2f :: (str "v2/order_book" ++ 0x3f :: q)))
        (by decide) (by decide)
  have h2 := takeWhile_dropWhile_stop isHostByte (str "api.quadrigacx.com") 0x2f
        (str "v2/order_book" ++ 0x3f :: q) (by decide) (by decide)
  have h3 := takeWhile_dropWhile_stop isPathByte (0x2f :: str "v2/order_book") 0x3f q
        (by decide) (by decide)
  have hs : str "://" = [0x3a, 0x2f, 0x2f] := by decide
  have hne1 : str "https" ≠ [] := by decide
  have hne2 : str "api.quadrigacx.com" ≠ [] := by decide
  have hall : q.all isQueryByte = true := by
    rw [List.all_eq_true]
    intro b hb
    have := hq b hb
    simp [isQueryByte, this.1, this.2.2.1, this.2.2.2]
  unfold plainURL
  simp only [hraw, h1.1, h1.2, List.drop_succ_cons, List.drop_zero, h2.1, h2.2]
  simp only [List.cons_append] at h3
  rw [h3.1, h3.2]
  simp [hs, HasPrefix, hne1, hne2, hall]

set_option maxRecDepth 100000 in
theorem Parse_order_book_query (lib : NetURL) (q : Bytes)
    (hq : ∀ b ∈ q, b ≠ 0x23 ∧ b ≠ 0x3f ∧ ¬ b < 0x20 ∧ b ≠ 0x7f) (hne : q ≠ []) :
    Parse lib (V2URL ++ str "order_book" ++ 0x3f :: q) =
      .ok ⟨str "https", [], none, str "api.quadrigacx.com", str "/v2/order_book", false, false,
        q, [], []⟩ := by
  have hB : V2URL ++ str "order_book" =
      str "https" ++ 0x3a :: str "//api.quadrigacx.com/v2/order_book" := by decide
  have hctl : stringContainsCTLByte (V2URL ++ str "order_book" ++ 0x3f :: q) = false := by
    have h0 : stringContainsCTLByte (V2URL ++ str "order_book") = false := by decide
    simp only [stringContainsCTLByte, List.any_append, List.any_cons] at h0 ⊢
    rw [h0]
    simp only [Bool.false_or, Bool.or_eq_false_iff, List.any_eq_false]
    refine ⟨by decide, ?_⟩
    intro x hx
    have := hq x hx
    simp [this.2.2.1, this.2.2.2]
  have hstar : V2URL ++ str "order_book" ++ 0x3f :: q ≠ str "*" := by
    intro h
    have := congrArg List.length h
    simp at this
    have h2 : (str "*").length = 1 := by decide
    have h3 : V2URL.length = 30 := by decide
    omega
  have hscheme : getScheme (V2URL ++ str "order_book" ++ 0x3f :: q) =
      .ok (str "https", str "//api.quadrigacx.com/v2/order_book" ++ 0x3f :: q) := by
    rw [hB]
    have := getSchemeFrom_alpha
      (str "https" ++ 0x3a :: str "//api.quadrigacx.com/v2/order_book" ++ 0x3f :: q)
      (str "https") (str "//api.quadrigacx.com/v2/order_book" ++ 0x3f :: q) []
      (by decide) (by decide)
    simpa [getScheme] using this
  have hlast : (str "//api.quadrigacx.com/v2/order_book" ++ 0x3f :: q).getLast? ≠
      some 0x3f := by
    rcases List.eq_nil_or_concat q with rfl | ⟨l, a, rfl⟩
    · exact absurd rfl hne
    · have ha : a ≠ 0x3f := (hq a (by simp)).2.1
      have : (str "//api.quadrigacx.com/v2/order_book" ++ 0x3f :: l.concat a) =
          (str "//api.quadrigacx.com/v2/order_book" ++ 0x3f :: l) ++ [a] := by simp
      rw [this, List.getLast?_append]
      simpa using ha
  have hq3f : (0x3f : UInt8) ∉ str "//api.quadrigacx.com/v2/order_book" := by decide
  have hsuf : str "?" = [0x3f] := by decide
  have hlow : ToLower (str "https") = str "https" := by decide
  have hhier : parseHier (str "https") (str "//api.quadrigacx.com/v2/order_book") =
      .ok ⟨str "https", [], none, str "api.quadrigacx.com", str "/v2/order_book", false, false,
        [], [], []⟩ := by decide
  unfold Parse
  rw [plainURL_order_book_query q hq, if_pos rfl]
  unfold parse
  simp only [hctl, if_neg hstar, hscheme, hsuf, HasSuffix_singleton _ _ hlast,
    Cut_append_cons _ _ _ hq3f, hlow, hhier]
  simp [Except.map]

set_option maxRecDepth 100000 in
theorem escapeByte_safe_aux : ∀ c : BitVec 8, ∀ b ∈ escapeByte ⟨c⟩,
    b ≠ 0x23 ∧ b ≠ 0x3f ∧ ¬ b < 0x20 ∧ b ≠ 0x7f := by decide

theorem QueryEscape_safe (s : Bytes) :
    ∀ b ∈ QueryEscape s, b ≠ 0x23 ∧ b ≠ 0x3f ∧ ¬ b < 0x20 ∧ b ≠ 0x7f := by
  intro b hb
  simp only [QueryEscape, List.mem_flatMap] at hb
  obtain ⟨c, _, hc⟩ := hb
  exact escapeByte_safe_aux c.toBitVec b hc

theorem QueryEscape_unreserved (s : Bytes) (h : ∀ b ∈ s, shouldEscape b = false) :
    QueryEscape s = s := by
  induction s with
  | nil => rfl
  | cons c cs ih =>
    have hc := h c (List.mem_cons_self _ _)
    have hsp : c ≠ 0x20 := by
      rintro rfl
      revert hc
      decide
    have ih2 := ih (fun b hb => h b (List.mem_cons_of_mem _ hb))
    simp only [QueryEscape] at ih2
    simp [QueryEscape, List.flatMap_cons, escapeByte, hc, hsp, ih2]

theorem Encode_book (book : Bytes) :
    Values.Encode (Values.Add [] (str "book") book) = str "book=" ++ QueryEscape book := by
  have h1 : QueryEscape (str "book") ++ [0x3d] = str "book=" := by decide
  simp only [Values.Add, Values.Encode, List.any_nil, Bool.false_eq_true, if_false,
    List.nil_append, List.flatMap_cons, List.flatMap_nil, List.map_cons, List.map_nil,
    List.append_nil, Join, List.intercalate, List.intersperse, List.flatten, h1]

set_option maxRecDepth 100000 in
theorem String_order_book_query (lib : NetURL) (q : Bytes) (hne : q ≠ []) :
    URL.String lib ⟨str "https", [], none, str "api.quadrigacx.com", str "/v2/order_book",
      false, false, q, [], []⟩ = V2URL ++ str "order_book" ++ 0x3f :: q := by
  have hp : plainFields ⟨str "https", [], none, str "api.quadrigacx.com",
      str "/v2/order_book", false, false, q, [], []⟩ = true := by
    have h0 : plainFields ⟨str "https", [], none, str "api.quadrigacx.com",
      str "/v2/order_book", false, false, [], [], []⟩ = true := by decide
    exact h0
  have h : URL.hierString ⟨str "https", [], none, str "api.quadrigacx.com",
      str "/v2/order_book", false, false, q, [], []⟩ = V2URL ++ str "order_book" := by
    have h0 : URL.hierString ⟨str "https", [], none, str "api.quadrigacx.com",
      str "/v2/order_book", false, false, [], [], []⟩ = V2URL ++ str "order_book" := by decide
    exact h0
  simp [URL.String, hp, h, hne]

set_option maxRecDepth 100000 in
theorem Parse_order_book (lib : NetURL) : Parse lib (V2URL ++ str "order_book") =
    .ok ⟨str "https", [], none, str "api.quadrigacx.com", str "/v2/order_book", false, false,
      [], [], []⟩ := by
  have hp : plainURL (V2URL ++ str "order_book") = true := by decide
  have h : parse (V2URL ++ str "order_book") =
      .ok ⟨str "https", [], none, str "api.quadrigacx.com", str "/v2/order_book", false,
        false, [], [], []⟩ := by decide
  rw [Parse, hp, if_pos rfl, h]

theorem bind_sent_of_silent {α β : Type} (r : Run α) (f : α → Run β)
    (h : ∀ a, (f a).sent = []) : (r >>= f).sent = r.sent := by
  show (Run.bind r f).sent = r.sent
  unfold Run.bind
  cases r.out with
  | panic p => rfl
  | ret a => simp [h a]

theorem get_sent (lib : NetURL) (net : Transport) (c : Client) (url : Bytes) (req : Request)
    (h : NewRequest lib (str "GET") url [] = .ok req) : (c.get lib net url).sent = [req] := by
  unfold Client.get
  rw [bind_sent_of_silent]
  · simp [httpGet, h, Do]
  · intro a
    cases a with
    | error e => rfl
    | ok resp => cases hr : resp.ReadErr <;> simp [hr] <;> rfl

theorem GetSpecificOrderBook_sent {T : Type} (lib : NetURL) (J : JsonType T) (net : Transport)
    (id key secret book : Bytes) :
    ((NewClient id key secret).GetSpecificOrderBook lib J net book).sent =
      [⟨str "GET", V2URL ++ str "order_book?book=" ++ QueryEscape book, [], []⟩] := by
  have hq : str "book=" ++ QueryEscape book ≠ [] := by
    have : str "book=" = [0x62, 0x6f, 0x6f, 0x6b, 0x3d] := by decide
    simp [this]
  have hbook : ∀ b ∈ str "book=", b ≠ 0x23 ∧ b ≠ 0x3f ∧ ¬ b < 0x20 ∧ b ≠ 0x7f := by decide
  have hsafe : ∀ b ∈ str "book=" ++ QueryEscape book,
      b ≠ 0x23 ∧ b ≠ 0x3f ∧ ¬ b < 0x20 ∧ b ≠ 0x7f := by
    intro b hb
    rcases List.mem_append.mp hb with h | h
    · exact hbook b h
    · exact QueryEscape_safe book b h
  have hurl : V2URL ++ str "order_book" ++ 0x3f :: (str "book=" ++ QueryEscape book) =
      V2URL ++ str "order_book?book=" ++ QueryEscape book := by
    have : str "order_book?book=" = str "order_book" ++ 0x3f :: str "book=" := by decide
    simp [this]
  have hreq : NewRequest lib (str "GET") (V2URL ++ str "order_book?book=" ++ QueryEscape book) [] =
      .ok ⟨str "GET", V2URL ++ str "order_book?book=" ++ QueryEscape book, [], []⟩ := by
    rw [← hurl]
    simp only [NewRequest, Parse_order_book_query lib _ hsafe hq]
  simp only [Client.GetSpecificOrderBook, NewClient, Client.URL, Parse_order_book lib, Encode_book,
    String_order_book_query lib _ hq, hurl]
  rw [bind_sent_of_silent]
  · exact get_sent lib net _ _ _ hreq
  · intro a
    split <;> rfl

/-! ### `post` -/

theorem post_ok (lib : NetURL) (net : Transport) (c : Client) (url payload : Bytes) (req : Request)
    (resp : Response) (hreq : NewRequest lib (str "POST") url payload = .ok req)
    (hnet : net (req.SetHeader (str "Content-Type") (str "application/json; charset=utf-8")) =
      .ok resp) :
    c.post lib net url payload =
      ⟨[req.SetHeader (str "Content-Type") (str "application/json; charset=utf-8")],
        .ret (resp.Body, none)⟩ := by
  simp [Client.post, hreq, Do, bind, Run.bind, hnet, pure, Run.pure]

theorem post_transport_error (lib : NetURL) (net : Transport) (c : Client) (url payload : Bytes)
    (req : Request) (e : GoError) (hreq : NewRequest lib (str "POST") url payload = .ok req)
    (hnet : net (req.SetHeader (str "Content-Type") (str "application/json; charset=utf-8")) =
      .error e) :
    c.post lib net url payload =
      ⟨[req.SetHeader (str "Content-Type") (str "application/json; charset=utf-8")],
        .panic (.explicit e)⟩ := by
  simp [Client.post, hreq, Do, bind, Run.bind, hnet, Run.panic]

theorem post_bad_request (lib : NetURL) (net : Transport) (c : Client) (url payload : Bytes)
    (e : GoError) (hreq : NewRequest lib (str "POST") url payload = .error e) :
    c.post lib net url payload = ⟨[], .panic .nilDereference⟩ := by
  simp [Client.post, hreq, Run.panic]

theorem post_ret_nil (lib : NetURL) (net : Transport) (c : Client) (url payload : Bytes)
    (r : Bytes × Option GoError) (h : (c.post lib net url payload).out = .ret r) : r.2 = none := by
  cases hreq : NewRequest lib (str "POST") url payload with
  | error e => simp [post_bad_request lib net c url payload e hreq] at h
  | ok req =>
    cases hnet : net (req.SetHeader (str "Content-Type")
        (str "application/json; charset=utf-8")) with
    | error e => simp [post_transport_error lib net c url payload req e hreq hnet] at h
    | ok resp =>
      simp [post_ok lib net c url payload req resp hreq hnet] at h
      rw [← h]

set_option maxRecDepth 100000 in
theorem NewRequest_endpoints (lib : NetURL) (method payload : Bytes) :
    NewRequest lib method (V2URL ++ str "balance") payload =
      .ok ⟨method, V2URL ++ str "balance", [], payload⟩ ∧
    NewRequest lib method (V2URL ++ str "open_orders") payload =
      .ok ⟨method, V2URL ++ str "open_orders", [], payload⟩ ∧
    NewRequest lib method (V2URL ++ str "lookup_order") payload =
      .ok ⟨method, V2URL ++ str "lookup_order", [], payload⟩ ∧
    NewRequest lib method (V2URL ++ str "cancel_order") payload =
      .ok ⟨method, V2URL ++ str "cancel_order", [], payload⟩ := by
  have p1 : plainURL (V2URL ++ str "balance") = true := by decide
  have p2 : plainURL (V2URL ++ str "open_orders") = true := by decide
  have p3 : plainURL (V2URL ++ str "lookup_order") = true := by decide
  have p4 : plainURL (V2URL ++ str "cancel_order") = true := by decide
  have h1 : (parse (V2URL ++ str "balance")).isOk = true := by decide
  have h2 : (parse (V2URL ++ str "open_orders")).isOk = true := by decide
  have h3 : (parse (V2URL ++ str "lookup_order")).isOk = true := by decide
  have h4 : (parse (V2URL ++ str "cancel_order")).isOk = true := by decide
  unfold NewRequest Parse
  rw [p1, p2, p3, p4]
  simp only [if_true]
  refine ⟨?_, ?_, ?_, ?_⟩
  · cases h : parse (V2URL ++ str "balance") <;> simp_all [Except.isOk, Except.toBool]
  · cases h : parse (V2URL ++ str "open_orders") <;> simp_all [Except.isOk, Except.toBool]
  · cases h : parse (V2URL ++ str "lookup_order") <;> simp_all [Except.isOk, Except.toBool]
  · cases h : parse (V2URL ++ str "cancel_order") <;> simp_all [Except.isOk, Except.toBool]

/-! ### `strings.Trim` and `strconv.ParseBool` -/

theorem rdropWhile_append_rtakeWhile (p : UInt8 → Bool) (l : Bytes) :
    l.rdropWhile p ++ l.rtakeWhile p = l := by
  have h : l.rdropWhile p ++ l.rtakeWhile p =
      (l.reverse.takeWhile p ++ l.reverse.dropWhile p).reverse := by
    rw [List.reverse_append]
    rfl
  rw [h, List.takeWhile_append_dropWhile, List.reverse_reverse]

theorem eq_replicate_of_all (q : UInt8) (l : Bytes) (h : ∀ x ∈ l, x = q) :
    l = List.replicate l.length q :=
  List.eq_replicate_iff.mpr ⟨rfl, h⟩

theorem Trim_quotes (b : Bytes) :
    (∃ i j, b = List.replicate i 0x22 ++ Trim b [0x22] ++ List.replicate j 0x22) ∧
    (Trim b [0x22]).head? ≠ some 0x22 ∧ (Trim b [0x22]).getLast? ≠ some 0x22 := by
  set p : UInt8 → Bool := fun x => decide (x ∈ [(0x22 : UInt8)]) with hp
  have hpq : ∀ x, p x = true → x = 0x22 := by
    intro x hx
    simpa [hp] using hx
  have hT : Trim b [0x22] = (b.rdropWhile p).dropWhile p := rfl
  refine ⟨⟨((b.rdropWhile p).takeWhile p).length, (b.rtakeWhile p).length, ?_⟩, ?_, ?_⟩
  · have h1 := rdropWhile_append_rtakeWhile p b
    have h2 := List.takeWhile_append_dropWhile p (b.rdropWhile p)
    have h3 := eq_replicate_of_all 0x22 (b.rtakeWhile p)
      (fun x hx => hpq x (List.mem_rtakeWhile_imp hx))
    have h4 := eq_replicate_of_all 0x22 ((b.rdropWhile p).takeWhile p)
      (fun x hx => hpq x (List.mem_takeWhile_imp hx))
    rw [hT, ← h4, h2, ← h3, h1]
  · rw [hT]
    have h := List.head?_dropWhile_not p (b.rdropWhile p)
    intro hh
    rw [hh] at h
    simp [hp] at h
  · rw [hT]
    intro hh
    have hne : (b.rdropWhile p).dropWhile p ≠ [] := by
      intro h0
      rw [h0] at hh
      simp at hh
    have h2 := List.takeWhile_append_dropWhile p (b.rdropWhile p)
    have hne2 : b.rdropWhile p ≠ [] := by
      intro h0
      rw [h0] at hne
      simp at hne
    have hlast := List.rdropWhile_last_not p b hne2
    have hl : (b.rdropWhile p).getLast? = some 0x22 := by
      rw [← h2, List.getLast?_append_of_ne_nil _ hne]
      exact hh
    rw [List.getLast?_eq_getLast _ hne2] at hl
    have : (b.rdropWhile p).getLast hne2 = 0x22 := by simpa using hl
    rw [this] at hlast
    simp [hp] at hlast

theorem ParseBool_cases (s : Bytes) :
    (ParseBool s = (true, none) ↔
      s ∈ [str "1", str "t", str "T", str "true", str "TRUE", str "True"]) ∧
    (ParseBool s = (false, none) ↔
      s ∈ [str "0", str "f", str "F", str "false", str "FALSE", str "False"]) ∧
    (s ∉ [str "1", str "t", str "T", str "true", str "TRUE", str "True"] →
      s ∉ [str "0", str "f", str "F", str "false", str "FALSE", str "False"] →
      ParseBool s = (false, some (GoError.numError (str "ParseBool") s))) := by
  have hdisj : ∀ x ∈ [str "1", str "t", str "T", str "true", str "TRUE", str "True"],
      x ∉ [str "0", str "f", str "F", str "false", str "FALSE", str "False"] := by decide
  unfold ParseBool
  by_cases h1 : s ∈ [str "1", str "t", str "T", str "true", str "TRUE", str "True"]
  · have h2 := hdisj s h1
    simp only [if_pos h1, true_iff, h1, h2, iff_false, not_true_eq_false, false_implies,
      and_true, true_and]
    simp
  · by_cases h2 : s ∈ [str "0", str "f", str "F", str "false", str "FALSE", str "False"]
    · simp only [if_neg h1, if_pos h2, h1, h2, iff_false, iff_true, not_true_eq_false,
        false_implies, implies_true, and_true, true_and]
      simp
    · simp only [if_neg h1, if_neg h2, h1, h2, iff_false, not_false_eq_true, true_implies,
        and_true]
      simp

theorem PostCancelOrder_out (lib : NetURL) (marshal : Marshal AuthOrder) (net : Transport) (c : Client)
    (now : Int) (id payload : Bytes) (req : Request) (resp : Response)
    (hm : marshal ⟨c.makeSig now, ⟨id⟩⟩ = (payload, none))
    (hreq : NewRequest lib (str "POST") (c.URL (str "cancel_order")) payload = .ok req)
    (hnet : net (req.SetHeader (str "Content-Type") (str "application/json; charset=utf-8")) =
      .ok resp) :
    (c.PostCancelOrder lib marshal net now id).out =
      .ret (if (ParseBool (Trim resp.Body [0x22])).2 ≠ none then
        (false, (ParseBool (Trim resp.Body [0x22])).2) else ParseBool (Trim resp.Body [0x22])) := by
  simp only [Client.PostCancelOrder, hm, post_ok lib net c _ _ req resp hreq hnet, bind, Run.bind,
    pure, Run.pure]
  simp
  split <;> simp_all

/-! ### The claims about the POST methods -/

/-- C1: the code does not return a "not found" error for an empty order list. When the
transport answers and the body decodes without error to the empty list, `PostOrderLookup`
indexes element 0 of it and panics. -/
theorem PostOrderLookup_empty_list_panics {L : Type} (lib : NetURL)
    (marshal : Marshal AuthOrder)
    (unmarshal : Bytes → List L → List L × Option GoError)
    (net : Transport) (c : Client) (now : Int) (id payload : Bytes) (req : Request)
    (resp : Response)
    (hm : marshal ⟨c.makeSig now, ⟨id⟩⟩ = (payload, none))
    (hreq : NewRequest lib (str "POST") (c.URL (str "lookup_order")) payload = .ok req)
    (hnet : net (req.SetHeader (str "Content-Type") (str "application/json; charset=utf-8")) =
      .ok resp)
    (hdec : unmarshal resp.Body [] = ([], none)) :
    (c.PostOrderLookup lib marshal unmarshal net now id).out = .panic (.indexOutOfRange 0 0) := by
  simp [Client.PostOrderLookup, hm, post_ok lib net c _ _ req resp hreq hnet, bind, Run.bind, hdec,
    index0, Run.panic]

set_option maxRecDepth 100000 in
/-- The example of C1: the body `[]`. -/
theorem PostOrderLookup_empty_list_example :
    (exampleClient.PostOrderLookup exampleNetURL exampleMarshal exampleUnmarshalOrders (answering (str "[]"))
      1700000000000000000 (str "42")).out = .panic (.indexOutOfRange 0 0) :=
  PostOrderLookup_empty_list_panics exampleNetURL exampleMarshal exampleUnmarshalOrders (answering (str "[]"))
    exampleClient 1700000000000000000 (str "42") _ _ ⟨str "[]", none⟩ rfl
    (NewRequest_endpoints exampleNetURL (str "POST") _).2.2.1 rfl (by decide)

/-- C8: when the transport answers and the body decodes without error to a non-empty list,
`PostOrderLookup` returns element 0 of the list and a nil error, whatever the further
elements are. -/
theorem PostOrderLookup_first {L : Type} (lib : NetURL)
    (marshal : Marshal AuthOrder)
    (unmarshal : Bytes → List L → List L × Option GoError)
    (net : Transport) (c : Client) (now : Int) (id payload : Bytes) (req : Request)
    (resp : Response) (x : L) (rest : List L)
    (hm : marshal ⟨c.makeSig now, ⟨id⟩⟩ = (payload, none))
    (hreq : NewRequest lib (str "POST") (c.URL (str "lookup_order")) payload = .ok req)
    (hnet : net (req.SetHeader (str "Content-Type") (str "application/json; charset=utf-8")) =
      .ok resp)
    (hdec : unmarshal resp.Body [] = (x :: rest, none)) :
    (c.PostOrderLookup lib marshal unmarshal net now id).out = .ret (x, none) := by
  simp [Client.PostOrderLookup, hm, post_ok lib net c _ _ req resp hreq hnet, bind, Run.bind, hdec,
    index0, pure, Run.pure]

set_option maxRecDepth 100000 in
/-- The example of C8: a body with two records; the first one is returned. -/
theorem PostOrderLookup_first_example :
    (exampleClient.PostOrderLookup exampleNetURL exampleMarshal exampleUnmarshalOrders
      (answering (str "[first,second]")) 1700000000000000000 (str "42")).out =
      .ret (str "first", none) :=
  PostOrderLookup_first exampleNetURL exampleMarshal exampleUnmarshalOrders
    (answering (str "[first,second]")) exampleClient 1700000000000000000 (str "42") _ _
    ⟨str "[first,second]", none⟩ (str "first") [str "second"] rfl
    (NewRequest_endpoints exampleNetURL (str "POST") _).2.2.1 rfl (by decide)

/-- C4: when the transport answers `cancel_order` with the body `"true"` in double quotes,
`PostCancelOrder` returns true and a nil error; with `"false"`, false and a nil error; with
`"notabool"`, false and the syntax error of `ParseBool`. -/
theorem PostCancelOrder_quoted_literals (lib : NetURL) (marshal : Marshal AuthOrder)
    (net : Transport)
    (c : Client) (now : Int) (id payload : Bytes) (req : Request) (resp : Response)
    (hm : marshal ⟨c.makeSig now, ⟨id⟩⟩ = (payload, none))
    (hreq : NewRequest lib (str "POST") (c.URL (str "cancel_order")) payload = .ok req)
    (hnet : net (req.SetHeader (str "Content-Type") (str "application/json; charset=utf-8")) =
      .ok resp) :
    (resp.Body = str "\"true\"" →
      (c.PostCancelOrder lib marshal net now id).out = .ret (true, none)) ∧
    (resp.Body = str "\"false\"" →
      (c.PostCancelOrder lib marshal net now id).out = .ret (false, none)) ∧
    (resp.Body = str "\"notabool\"" →
      (c.PostCancelOrder lib marshal net now id).out =
        .ret (false, some (GoError.numError (str "ParseBool") (str "notabool")))) := by
  rw [PostCancelOrder_out lib marshal net c now id payload req resp hm hreq hnet]
  refine ⟨?_, ?_, ?_⟩
  · intro hb
    have h : ParseBool (Trim (str "\"true\"") [0x22]) = (true, none) := by decide
    rw [hb, h]
    simp
  · intro hb
    have h : ParseBool (Trim (str "\"false\"") [0x22]) = (false, none) := by decide
    rw [hb, h]
    simp
  · intro hb
    have h : ParseBool (Trim (str "\"notabool\"") [0x22]) =
        (false, some (GoError.numError (str "ParseBool") (str "notabool"))) := by decide
    rw [hb, h]
    simp

set_option maxRecDepth 100000 in
/-- The example of C4: the body `"true"` in double quotes. -/
theorem PostCancelOrder_quoted_true_example :
    (exampleClient.PostCancelOrder exampleNetURL exampleMarshal (answering (str "\"true\""))
      1700000000000000000 (str "42")).out = .ret (true, none) :=
  (PostCancelOrder_quoted_literals exampleNetURL exampleMarshal (answering (str "\"true\"")) exampleClient
    1700000000000000000 (str "42") _ _ ⟨str "\"true\"", none⟩ rfl
    (NewRequest_endpoints exampleNetURL (str "POST") _).2.2.2 rfl).1 rfl

/-- C10: let `s` be the body of the `cancel_order` response without its leading and
trailing double quotes (any number of them on either side). `PostCancelOrder` returns true
and a nil error exactly when `s` is one of `1`, `t`, `T`, `true`, `TRUE`, `True`; false and
a nil error exactly when `s` is one of `0`, `f`, `F`, `false`, `FALSE`, `False`; and false
with the syntax error of `ParseBool` for every other `s`, such as a body with a trailing
newline or surrounding spaces. -/
theorem PostCancelOrder_spec (lib : NetURL) (marshal : Marshal AuthOrder)
    (net : Transport)
    (c : Client) (now : Int) (id payload : Bytes) (req : Request) (resp : Response)
    (hm : marshal ⟨c.makeSig now, ⟨id⟩⟩ = (payload, none))
    (hreq : NewRequest lib (str "POST") (c.URL (str "cancel_order")) payload = .ok req)
    (hnet : net (req.SetHeader (str "Content-Type") (str "application/json; charset=utf-8")) =
      .ok resp) :
    (∃ i j, resp.Body =
      List.replicate i 0x22 ++ Trim resp.Body [0x22] ++ List.replicate j 0x22) ∧
    (Trim resp.Body [0x22]).head? ≠ some 0x22 ∧
    (Trim resp.Body [0x22]).getLast? ≠ some 0x22 ∧
    ((c.PostCancelOrder lib marshal net now id).out = .ret (true, none) ↔
      Trim resp.Body [0x22] ∈ [str "1", str "t", str "T", str "true", str "TRUE", str "True"]) ∧
    ((c.PostCancelOrder lib marshal net now id).out = .ret (false, none) ↔
      Trim resp.Body [0x22] ∈
        [str "0", str "f", str "F", str "false", str "FALSE", str "False"]) ∧
    (Trim resp.Body [0x22] ∉ [str "1", str "t", str "T", str "true", str "TRUE", str "True"] →
      Trim resp.Body [0x22] ∉
        [str "0", str "f", str "F", str "false", str "FALSE", str "False"] →
      (c.PostCancelOrder lib marshal net now id).out =
        .ret (false, some (GoError.numError (str "ParseBool") (Trim resp.Body [0x22])))) ∧
    (resp.Body = str "true" ++ [0x0a] ∨ resp.Body = str " true " →
      (c.PostCancelOrder lib marshal net now id).out =
        .ret (false, some (GoError.numError (str "ParseBool") resp.Body))) := by
  obtain ⟨hsplit, hhead, hlast⟩ := Trim_quotes resp.Body
  obtain ⟨hT, hF, hE⟩ := ParseBool_cases (Trim resp.Body [0x22])
  rw [PostCancelOrder_out lib marshal net c now id payload req resp hm hreq hnet]
  refine ⟨hsplit, hhead, hlast, ?_, ?_, ?_, ?_⟩
  · constructor
    · intro h
      apply hT.mp
      by_cases hn : (ParseBool (Trim resp.Body [0x22])).2 ≠ none
      · rw [if_pos hn] at h
        simp at h
      · rw [if_neg hn] at h
        exact Outcome.ret.inj h
    · intro h
      rw [hT.mpr h]
      simp
  · constructor
    · intro h
      apply hF.mp
      by_cases hn : (ParseBool (Trim resp.Body [0x22])).2 ≠ none
      · rw [if_pos hn] at h
        have h2 := congrArg Prod.snd (Outcome.ret.inj h)
        exact absurd h2 hn
      · rw [if_neg hn] at h
        exact Outcome.ret.inj h
    · intro h
      rw [hF.mpr h]
      simp
  · intro h1 h2
    rw [hE h1 h2]
    simp
  · intro hb
    have h1 : ParseBool (Trim (str "true" ++ [0x0a]) [0x22]) =
        (false, some (GoError.numError (str "ParseBool") (str "true" ++ [0x0a]))) := by decide
    have h2 : ParseBool (Trim (str " true ") [0x22]) =
        (false, some (GoError.numError (str "ParseBool") (str " true "))) := by decide
    rcases hb with hb | hb
    · rw [hb, h1]
      simp
    · rw [hb, h2]
      simp

set_option maxRecDepth 100000 in
/-- The example of C10: a body with two leading quotes and one trailing quote. -/
theorem PostCancelOrder_spec_example :
    (exampleClient.PostCancelOrder exampleNetURL exampleMarshal (answering (str "\"\"T\""))
      1700000000000000000 (str "42")).out = .ret (true, none) :=
  (PostCancelOrder_spec exampleNetURL exampleMarshal (answering (str "\"\"T\"")) exampleClient
    1700000000000000000 (str "42") _ _ ⟨str "\"\"T\"", none⟩ rfl
    (NewRequest_endpoints exampleNetURL (str "POST") _).2.2.2 rfl).2.2.2.1.mpr (by decide)

/-- C5: the code drops the decode error. When the transport answers and `json.Unmarshal`
fails on the body, `PostAccountBalance` and `PostOpenOrders` return the value that the
decoder left and a nil error. -/
theorem decode_error_dropped :
    (∀ (lib : NetURL)
      (T : Type) (marshal : Marshal BaseAuth) (J : JsonType T) (net : Transport) (c : Client)
      (now : Int) (payload : Bytes) (req : Request) (resp : Response) (v : T) (e : GoError),
      marshal (c.makeSig now) = (payload, none) →
      NewRequest lib (str "POST") (c.URL (str "balance")) payload = .ok req →
      net (req.SetHeader (str "Content-Type") (str "application/json; charset=utf-8")) =
        .ok resp →
      J.Unmarshal resp.Body J.zero = (v, some e) →
      (c.PostAccountBalance lib marshal J net now).out = .ret (v, none)) ∧
    (∀ (lib : NetURL)
      (T : Type) (marshal : Marshal BaseAuth) (J : JsonType T) (net : Transport) (c : Client)
      (now : Int) (payload : Bytes) (req : Request) (resp : Response) (v : T) (e : GoError),
      marshal (c.makeSig now) = (payload, none) →
      NewRequest lib (str "POST") (c.URL (str "open_orders")) payload = .ok req →
      net (req.SetHeader (str "Content-Type") (str "application/json; charset=utf-8")) =
        .ok resp →
      J.Unmarshal resp.Body J.zero = (v, some e) →
      (c.PostOpenOrders lib marshal J net now).out = .ret (v, none)) := by
  constructor
  · intro lib T marshal J net c now payload req resp v e hm hreq hnet hdec
    simp [Client.PostAccountBalance, hm, post_ok lib net c _ _ req resp hreq hnet, bind, Run.bind,
      hdec, pure, Run.pure]
  · intro lib T marshal J net c now payload req resp v e hm hreq hnet hdec
    simp [Client.PostOpenOrders, hm, post_ok lib net c _ _ req resp hreq hnet, bind, Run.bind,
      hdec, pure, Run.pure]

set_option maxRecDepth 100000 in
/-- The example of C5: a body that is not JSON. -/
theorem decode_error_dropped_example :
    (exampleClient.PostAccountBalance exampleNetURL exampleMarshalAuth exampleJson (answering (str "<html>"))
      1700000000000000000).out = .ret ([], none) :=
  decode_error_dropped.1 exampleNetURL Bytes exampleMarshalAuth exampleJson (answering (str "<html>"))
    exampleClient 1700000000000000000 _ _ ⟨str "<html>", none⟩ []
    (GoError.json (str "invalid character")) rfl
    (NewRequest_endpoints exampleNetURL (str "POST") _).1 rfl (by decide)

theorem get_failing (lib : NetURL) (e : GoError) (c : Client) (url : Bytes) :
    ∃ err, c.get lib (failing e) url = ⟨(c.get lib (failing e) url).sent, .ret ([], some err)⟩ := by
  unfold Client.get httpGet
  cases h : NewRequest lib (str "GET") url [] with
  | error e2 => exact ⟨e2, by simp [bind, Run.bind, pure, Run.pure]⟩
  | ok req => exact ⟨e, by simp [bind, Run.bind, pure, Run.pure, Do, failing]⟩

/-- C2: the code does not return an error from a POST whose transport fails. With a
transport that fails every request with `e`, each GET method returns the zero value and a
non-nil error, and each POST method whose request could be built panics with `e`. -/
theorem transport_failure_outcomes (e : GoError) :
    (∀ (lib : NetURL) (T : Type) (J : JsonType T) (c : Client),
      ∃ err, (c.GetCurrentTradingInfo lib J (failing e)).out = .ret (J.zero, some err)) ∧
    (∀ (lib : NetURL) (T : Type) (J : JsonType T) (c : Client),
      ∃ err, (c.GetOrderBook lib J (failing e)).out = .ret (J.zero, some err)) ∧
    (∀ (lib : NetURL) (T : Type) (J : JsonType T) (c : Client) (book : Bytes),
      ∃ err, (c.GetSpecificOrderBook lib J (failing e) book).out = .ret (J.zero, some err)) ∧
    (∀ (lib : NetURL) (T : Type) (J : JsonType T) (c : Client),
      ∃ err, (c.GetTransactions lib J (failing e)).out = .ret (J.zero, some err)) ∧
    (∀ (lib : NetURL)
      (T : Type) (marshal : Marshal BaseAuth) (J : JsonType T) (c : Client) (now : Int)
      (payload : Bytes) (req : Request),
      marshal (c.makeSig now) = (payload, none) →
      NewRequest lib (str "POST") (c.URL (str "balance")) payload = .ok req →
      (c.PostAccountBalance lib marshal J (failing e) now).out = .panic (.explicit e)) ∧
    (∀ (lib : NetURL)
      (T : Type) (marshal : Marshal BaseAuth) (J : JsonType T) (c : Client) (now : Int)
      (payload : Bytes) (req : Request),
      marshal (c.makeSig now) = (payload, none) →
      NewRequest lib (str "POST") (c.URL (str "open_orders")) payload = .ok req →
      (c.PostOpenOrders lib marshal J (failing e) now).out = .panic (.explicit e)) ∧
    (∀ (lib : NetURL) (L : Type) (marshal : Marshal AuthOrder)
      (unmarshal : Bytes → List L → List L × Option GoError) (c : Client) (now : Int)
      (id payload : Bytes) (req : Request),
      marshal ⟨c.makeSig now, ⟨id⟩⟩ = (payload, none) →
      NewRequest lib (str "POST") (c.URL (str "lookup_order")) payload = .ok req →
      (c.PostOrderLookup lib marshal unmarshal (failing e) now id).out = .panic (.explicit e)) ∧
    (∀ (lib : NetURL) (marshal : Marshal AuthOrder) (c : Client) (now : Int) (id payload : Bytes)
      (req : Request),
      marshal ⟨c.makeSig now, ⟨id⟩⟩ = (payload, none) →
      NewRequest lib (str "POST") (c.URL (str "cancel_order")) payload = .ok req →
      (c.PostCancelOrder lib marshal (failing e) now id).out = .panic (.explicit e)) := by
  refine ⟨?_, ?_, ?_, ?_, ?_, ?_, ?_, ?_⟩
  · intro lib T J c
    obtain ⟨err, h⟩ := get_failing lib e c (c.URL (str "ticker"))
    refine ⟨err, ?_⟩
    unfold Client.GetCurrentTradingInfo
    rw [h]
    simp [bind, Run.bind, pure, Run.pure]
  · intro lib T J c
    obtain ⟨err, h⟩ := get_failing lib e c (c.URL (str "order_book"))
    refine ⟨err, ?_⟩
    unfold Client.GetOrderBook
    rw [h]
    simp [bind, Run.bind, pure, Run.pure]
  · intro lib T J c book
    unfold Client.GetSpecificOrderBook
    cases hp : Parse lib (c.URL (str "order_book")) with
    | error e2 => exact ⟨e2, by simp [pure, Run.pure]⟩
    | ok u =>
      obtain ⟨err, h⟩ := get_failing lib e c
        (URL.String lib { u with RawQuery := Values.Encode (Values.Add [] (str "book") book) })
      refine ⟨err, ?_⟩
      simp only []
      rw [h]
      simp [bind, Run.bind, pure, Run.pure]
  · intro lib T J c
    obtain ⟨err, h⟩ := get_failing lib e c (c.URL (str "transactions"))
    refine ⟨err, ?_⟩
    unfold Client.GetTransactions
    rw [h]
    simp [bind, Run.bind, pure, Run.pure]
  · intro lib T marshal J c now payload req hm hreq
    simp [Client.PostAccountBalance, hm,
      post_transport_error lib (failing e) c _ _ req e hreq rfl, bind, Run.bind]
  · intro lib T marshal J c now payload req hm hreq
    simp [Client.PostOpenOrders, hm,
      post_transport_error lib (failing e) c _ _ req e hreq rfl, bind, Run.bind]
  · intro lib L marshal unmarshal c now id payload req hm hreq
    simp [Client.PostOrderLookup, hm,
      post_transport_error lib (failing e) c _ _ req e hreq rfl, bind, Run.bind]
  · intro lib marshal c now id payload req hm hreq
    simp [Client.PostCancelOrder, hm,
      post_transport_error lib (failing e) c _ _ req e hreq rfl, bind, Run.bind]

set_option maxRecDepth 100000 in
/-- The example of C2: `PostAccountBalance` on a refused connection. -/
theorem transport_failure_example :
    (exampleClient.PostAccountBalance exampleNetURL exampleMarshalAuth exampleJson
      (failing (GoError.transport (str "connection refused"))) 1700000000000000000).out =
      .panic (.explicit (GoError.transport (str "connection refused"))) :=
  (transport_failure_outcomes (GoError.transport (str "connection refused"))).2.2.2.2.1
    exampleNetURL Bytes exampleMarshalAuth exampleJson exampleClient 1700000000000000000 _ _ rfl
    (NewRequest_endpoints exampleNetURL (str "POST") _).1

theorem bind_out_of_ret {α β : Type} (r : Run α) (f : α → Run β) (a : α)
    (h : r.out = .ret a) : (r >>= f).out = (f a).out := by
  show (Run.bind r f).out = (f a).out
  unfold Run.bind
  rw [h]

/-- C9: for every URL and payload, and whatever `url.Parse` does outside the plain URLs,
whenever `post` returns, its error is nil. An error of `http.NewRequest`, of any kind, is
not returned (the nil request is dereferenced before a request is sent), an error of the
transport is not returned (it is the argument of `panic`), and an error of reading the body
is dropped: the bytes read are returned with a nil error. So the `err != nil` test after
each call of `post` is never true: whenever `post` returns, each of the four POST methods
goes on to decode the body. -/
theorem post_error_always_nil :
    (∀ (lib : NetURL)
      (net : Transport) (c : Client) (url payload : Bytes) (r : Bytes × Option GoError),
      (c.post lib net url payload).out = .ret r → r.2 = none) ∧
    (∀ (lib : NetURL) (net : Transport) (c : Client) (url payload : Bytes) (e : GoError),
      NewRequest lib (str "POST") url payload = .error e →
      c.post lib net url payload = ⟨[], .panic .nilDereference⟩) ∧
    (∀ (lib : NetURL)
      (net : Transport) (c : Client) (url payload : Bytes) (req : Request) (e : GoError),
      NewRequest lib (str "POST") url payload = .ok req →
      net (req.SetHeader (str "Content-Type") (str "application/json; charset=utf-8")) =
        .error e →
      (c.post lib net url payload).out = .panic (.explicit e)) ∧
    (∀ (lib : NetURL)
      (net : Transport) (c : Client) (url payload : Bytes) (req : Request) (body : Bytes)
      (readErr : Option GoError),
      NewRequest lib (str "POST") url payload = .ok req →
      net (req.SetHeader (str "Content-Type") (str "application/json; charset=utf-8")) =
        .ok ⟨body, readErr⟩ →
      (c.post lib net url payload).out = .ret (body, none)) ∧
    (∀ (lib : NetURL)
      (T : Type) (marshal : Marshal BaseAuth) (J : JsonType T) (net : Transport) (c : Client)
      (now : Int) (payload : Bytes) (r : Bytes × Option GoError),
      marshal (c.makeSig now) = (payload, none) →
      (c.post lib net (c.URL (str "balance")) payload).out = .ret r →
      (c.PostAccountBalance lib marshal J net now).out = .ret ((J.Unmarshal r.1 J.zero).1, none)) ∧
    (∀ (lib : NetURL)
      (T : Type) (marshal : Marshal BaseAuth) (J : JsonType T) (net : Transport) (c : Client)
      (now : Int) (payload : Bytes) (r : Bytes × Option GoError),
      marshal (c.makeSig now) = (payload, none) →
      (c.post lib net (c.URL (str "open_orders")) payload).out = .ret r →
      (c.PostOpenOrders lib marshal J net now).out = .ret ((J.Unmarshal r.1 J.zero).1, none)) ∧
    (∀ (lib : NetURL) (L : Type) (marshal : Marshal AuthOrder)
      (unmarshal : Bytes → List L → List L × Option GoError) (net : Transport) (c : Client)
      (now : Int) (id payload : Bytes) (r : Bytes × Option GoError),
      marshal ⟨c.makeSig now, ⟨id⟩⟩ = (payload, none) →
      (c.post lib net (c.URL (str "lookup_order")) payload).out = .ret r →
      (c.PostOrderLookup lib marshal unmarshal net now id).out =
        match (unmarshal r.1 []).1 with
        | [] => .panic (.indexOutOfRange 0 0)
        | x :: _ => .ret (x, (unmarshal r.1 []).2)) ∧
    (∀ (lib : NetURL) (marshal : Marshal AuthOrder) (net : Transport) (c : Client) (now : Int)
      (id payload : Bytes) (r : Bytes × Option GoError),
      marshal ⟨c.makeSig now, ⟨id⟩⟩ = (payload, none) →
      (c.post lib net (c.URL (str "cancel_order")) payload).out = .ret r →
      (c.PostCancelOrder lib marshal net now id).out =
        .ret (if (ParseBool (Trim r.1 [0x22])).2 ≠ none then
          (false, (ParseBool (Trim r.1 [0x22])).2) else ParseBool (Trim r.1 [0x22]))) := by
  refine ⟨post_ret_nil, ?_, ?_, ?_, ?_, ?_, ?_, ?_⟩
  · intro lib net c url payload e hreq
    exact post_bad_request lib net c url payload e hreq
  · intro lib net c url payload req e hreq hnet
    rw [post_transport_error lib net c url payload req e hreq hnet]
  · intro lib net c url payload req body readErr hreq hnet
    rw [post_ok lib net c url payload req _ hreq hnet]
  · intro lib T marshal J net c now payload r hm hr
    have hnil := post_ret_nil lib net c _ _ r hr
    obtain ⟨body, err⟩ := r
    simp only at hnil
    subst hnil
    simp only [Client.PostAccountBalance, hm]
    simp [bind_out_of_ret _ _ _ hr, pure, Run.pure]
  · intro lib T marshal J net c now payload r hm hr
    have hnil := post_ret_nil lib net c _ _ r hr
    obtain ⟨body, err⟩ := r
    simp only at hnil
    subst hnil
    simp only [Client.PostOpenOrders, hm]
    simp [bind_out_of_ret _ _ _ hr, pure, Run.pure]
  · intro lib L marshal unmarshal net c now id payload r hm hr
    have hnil := post_ret_nil lib net c _ _ r hr
    obtain ⟨body, err⟩ := r
    simp only at hnil
    subst hnil
    simp only [Client.PostOrderLookup, hm]
    simp only [ne_eq, not_true_eq_false, if_false, bind_out_of_ret _ _ _ hr]
    cases hdec : (unmarshal body []).1 with
    | nil =>
      simp [hdec, index0, Run.panic, bind, Run.bind]
    | cons x rest =>
      simp [hdec, index0, bind, Run.bind, pure, Run.pure]
  · intro lib marshal net c now id payload r hm hr
    have hnil := post_ret_nil lib net c _ _ r hr
    obtain ⟨body, err⟩ := r
    simp only at hnil
    subst hnil
    simp only [Client.PostCancelOrder, hm]
    simp only [ne_eq, not_true_eq_false, if_false, bind_out_of_ret _ _ _ hr]
    split
    · simp_all [pure, Run.pure]
    · rename_i hnone
      simp only [not_not] at hnone
      simp only [pure, Run.pure, hnone, not_true_eq_false, if_false]
      rw [← hnone]

set_option maxRecDepth 100000 in
/-- The examples of C9: a read that fails after the bytes `par`, and a URL with a port that
is not a number, which the library rejects. -/
theorem post_error_always_nil_example :
    (exampleClient.post exampleNetURL
      (fun _ => .ok ⟨str "par", some (GoError.read (str "unexpected EOF"))⟩)
      (exampleClient.URL (str "balance")) (str "payload")).out = .ret (str "par", none) ∧
    exampleClient.post exampleNetURL (answering (str "ok")) (str "http://h:port/x")
      (str "payload") = ⟨[], .panic .nilDereference⟩ :=
  ⟨post_error_always_nil.2.2.2.1 exampleNetURL _ exampleClient _ (str "payload") _ (str "par")
    (some (GoError.read (str "unexpected EOF")))
    (NewRequest_endpoints exampleNetURL (str "POST") _).1 rfl,
   post_error_always_nil.2.1 exampleNetURL (answering (str "ok")) exampleClient
    (str "http://h:port/x") (str "payload") (GoError.url (str "invalid URL")) (by decide)⟩

/-- C7, as stated, fails: the book `btc/cad` is sent as `btc%2Fcad`. -/
theorem GetSpecificOrderBook_escapes_book :
    ((exampleClient.GetSpecificOrderBook exampleNetURL exampleJson (answering (str "[]"))
      (str "btc/cad")).sent.map Request.URL =
        [str "https://api.quadrigacx.com/v2/order_book?book=btc%2Fcad"]) ∧
    str "https://api.quadrigacx.com/v2/order_book?book=btc%2Fcad" ≠
      str "https://api.quadrigacx.com/v2/" ++ str "order_book?book=" ++ str "btc/cad" := by
  constructor
  · rw [exampleClient, GetSpecificOrderBook_sent]
    decide
  · decide

/-- C7, amended: for a client built by `NewClient`, `GetSpecificOrderBook` hands one
request to the transport, a GET of the API root `https://api.quadrigacx.com/v2/` followed
by `order_book?book=` and by the query escape of `book`, which is `book` itself when all its
bytes are letters, digits, `-`, `_`, `.` or `~`; and `URL(res)` is the root followed by
`res`. -/
theorem GetSpecificOrderBook_url :
    (∀ (lib : NetURL) (T : Type) (J : JsonType T) (net : Transport) (id key secret book : Bytes),
      ((NewClient id key secret).GetSpecificOrderBook lib J net book).sent =
        [⟨str "GET", str "https://api.quadrigacx.com/v2/" ++ str "order_book?book=" ++
          QueryEscape book, [], []⟩]) ∧
    (∀ book : Bytes, (∀ b ∈ book, shouldEscape b = false) → QueryEscape book = book) ∧
    (∀ (id key secret res : Bytes),
      (NewClient id key secret).URL res = str "https://api.quadrigacx.com/v2/" ++ res) ∧
    (∀ (c : Client) (res : Bytes), c.URL res = c.RootUrl ++ res) :=
  ⟨fun lib _ J net id key secret book => GetSpecificOrderBook_sent lib J net id key secret book,
    QueryEscape_unreserved, fun _ _ _ _ => rfl, fun _ _ => rfl⟩

/-- The example of C7: the book `btc_cad` is sent as it is. -/
theorem GetSpecificOrderBook_url_example :
    QueryEscape (str "btc_cad") = str "btc_cad" :=
  GetSpecificOrderBook_url.2.1 (str "btc_cad") (by decide)

end GoQuadriga
